import Mathlib

/-!
Verification of the luckfox SD-card flashing scripts (src/img2sd.py and
src/multiflash.py) against their natural-language specification.

The Python functions are embedded shallowly: pure helpers become Lean
functions, the `dd`-parameter arithmetic of the flash loop becomes an
explicit list of write operations, and the orchestrator's monitor cycle
becomes a step function on a state of device sets.  Regex searches
(`re.search`) are embedded as left-to-right scanners; since every pattern
used by the scripts alternates greedy character-class runs with literal
characters, matching at a given start position is deterministic (a shorter
greedy run always ends on a character of the same class and therefore fails
the following literal/class test exactly as the maximal run does), so the
scanner tries each start position in order and applies the maximal-run
match there.
-/

namespace Luckfox

/-! ## Size codec (src/img2sd.py, true_size lines 132-137, nice_size lines 139-145) -/

/-- Byte value of a unit suffix, the dictionary `u` of true_size/nice_size. -/
def unitVal : Char → Nat
  | 'B' => 1
  | 'K' => 1024
  | 'M' => 1024 * 1024
  | 'G' => 1024 * 1024 * 1024
  | _ => 0

/-- Character class `[BKMG]` of the true_size regex. -/
def isUnitChar (c : Char) : Bool := c == 'B' || c == 'K' || c == 'M' || c == 'G'

/-- Value of a decimal digit character. -/
def digitVal (c : Char) : Nat := c.toNat - 48

/-- Python int() on a decimal digit string, accumulator form. -/
def decValAux : Nat → List Char → Nat
  | acc, [] => acc
  | acc, c :: r => decValAux (10 * acc + digitVal c) r

/-- Python int() on a decimal digit string. -/
def decVal (l : List Char) : Nat := decValAux 0 l

/-- Embeds re.search of the pattern digits-then-unit used by true_size:
scan start positions left to right; at a digit, the greedy digit run is
maximal and the next character must be a unit letter (a shorter run ends on
a digit, which is not a unit letter, so only the maximal run can match). -/
def findSizeMatch : List Char → Option (List Char × Char)
  | [] => none
  | c :: rest =>
    if c.isDigit then
      match (c :: rest).dropWhile Char.isDigit with
      | u :: _ =>
        if isUnitChar u then some ((c :: rest).takeWhile Char.isDigit, u)
        else findSizeMatch rest
      | [] => findSizeMatch rest
    else findSizeMatch rest

/-- true_size from src/img2sd.py lines 132-137: value of the first
digits-then-unit match, and 0 when nothing matches. -/
def true_size (s : String) : Nat :=
  match findSizeMatch s.data with
  | some (ds, u) => decVal ds * unitVal u
  | none => 0

/-- Decimal digits of n, most significant first, driven by a fuel argument
(fuel at least the number of digits; callers pass n itself). -/
def natDigitsAux : Nat → Nat → List Char
  | 0, _ => []
  | fuel + 1, n =>
    if n = 0 then [] else natDigitsAux fuel (n / 10) ++ [Nat.digitChar (n % 10)]

/-- Decimal digit list of a natural number. -/
def natToDigits (n : Nat) : List Char := if n = 0 then ['0'] else natDigitsAux n n

/-- Comma grouping of Python format specifier, working on the reversed
(least-significant-first) digit list: a comma after every third digit,
except at the very end. -/
def commaLE : List Char → Nat → List Char
  | [], _ => []
  | c :: rest, i =>
    if (i + 1) % 3 = 0 ∧ rest ≠ [] then c :: ',' :: commaLE rest (i + 1)
    else c :: commaLE rest (i + 1)

/-- Thousands separators as inserted by Python format strings of nice_size. -/
def insertCommas (ds : List Char) : List Char := (commaLE ds.reverse 0).reverse

/-- One formatted token of nice_size: comma-grouped count followed by the
unit letter. -/
def sizeFmt (m : Nat) (u : Char) : String := String.mk (insertCommas (natToDigits m) ++ [u])

def KB : Nat := 1024

def MB : Nat := 1024 * 1024

def GB : Nat := 1024 * 1024 * 1024

/-- nice_size from src/img2sd.py lines 139-145: the loop over
reversed(u.items()) visits G, M, K, B and returns the first unit that is a
lower bound of and divides n; the B step accepts every n at least 1, and
the fallback line returns the same token for n equal to 0. -/
def nice_size (n : Nat) : String :=
  if n ≥ GB ∧ n % GB = 0 then sizeFmt (n / GB) 'G'
  else if n ≥ MB ∧ n % MB = 0 then sizeFmt (n / MB) 'M'
  else if n ≥ KB ∧ n % KB = 0 then sizeFmt (n / KB) 'K'
  else if n ≥ 1 ∧ n % 1 = 0 then sizeFmt n 'B'
  else sizeFmt n 'B'

/-- The count printed by nice_size, that is n divided by the unit nice_size
selects for it. -/
def niceCount (n : Nat) : Nat :=
  if n ≥ GB ∧ n % GB = 0 then n / GB
  else if n ≥ MB ∧ n % MB = 0 then n / MB
  else if n ≥ KB ∧ n % KB = 0 then n / KB
  else n

/-! ## Partition entry matching (src/img2sd.py, main lines 324-344) -/

/-- Character class `[KMG]` of the two partition-entry regexes. -/
def isKMG (c : Char) : Bool := c == 'K' || c == 'M' || c == 'G'

/-- Python word character (ASCII), the class `\w` of the entry regexes. -/
def isWordChar (c : Char) : Bool := c.isAlphanum || c == '_'

/-- Capture groups of a partition-entry regex match: the size token, the
optional explicit offset token, and the name. -/
structure EntryMatch where
  sizeTok : List Char
  offTok : Option (List Char)
  nameTok : List Char
deriving DecidableEq

/-- Match of the explicit-offset entry pattern (size at-sign offset
parenthesised name) at one fixed start position. -/
def p1At (cs : List Char) : Option EntryMatch :=
  match cs.span Char.isDigit with
  | ([], _) => none
  | (ds1, r1) =>
    match r1 with
    | u1 :: '@' :: r2 =>
      if isKMG u1 then
        match r2.span Char.isDigit with
        | ([], _) => none
        | (ds2, r3) =>
          match r3 with
          | u2 :: '(' :: r4 =>
            if isKMG u2 then
              match r4.span isWordChar with
              | ([], _) => none
              | (ws, ')' :: _) => some ⟨ds1 ++ [u1], some (ds2 ++ [u2]), ws⟩
              | _ => none
            else none
          | _ => none
      else none
    | _ => none

/-- Match of the implicit-offset entry pattern (size then parenthesised
name) at one fixed start position. -/
def p2At (cs : List Char) : Option EntryMatch :=
  match cs.span Char.isDigit with
  | ([], _) => none
  | (ds, r1) =>
    match r1 with
    | u :: '(' :: r2 =>
      if isKMG u then
        match r2.span isWordChar with
        | ([], _) => none
        | (ws, ')' :: _) => some ⟨ds ++ [u], none, ws⟩
        | _ => none
      else none
    | _ => none

/-- re.search of the explicit-offset pattern: leftmost match. -/
def searchP1 : List Char → Option EntryMatch
  | [] => none
  | c :: rest =>
    match p1At (c :: rest) with
    | some m => some m
    | none => searchP1 rest

/-- re.search of the implicit-offset pattern: leftmost match. -/
def searchP2 : List Char → Option EntryMatch
  | [] => none
  | c :: rest =>
    match p2At (c :: rest) with
    | some m => some m
    | none => searchP2 rest

/-- One parsed partition record: name, size in bytes, and the offset token
value (the `off` variable of main, parsed for explicit entries and 0 for
implicit ones; the flash loop seeks by the cumulative cursor, not by this
field). -/
structure PartRecord where
  recName : String
  size : Nat
  declOff : Nat
deriving DecidableEq

/-- The walrus condition of main line 336: try the explicit-offset pattern
first, then the implicit one; main distinguishes them by the number of
capture groups and calls true_size on the captured size token. -/
def parseEntry (e : List Char) : Option PartRecord :=
  match searchP1 e with
  | some m => some ⟨String.mk m.nameTok, true_size (String.mk m.sizeTok),
      true_size (String.mk (m.offTok.getD []))⟩
  | none =>
    match searchP2 e with
    | some m => some ⟨String.mk m.nameTok, true_size (String.mk m.sizeTok), 0⟩
    | none => none

/-- Python str.split on a comma, as used on the descriptor line. -/
def splitComma : List Char → List (List Char)
  | [] => [[]]
  | c :: rest =>
    if c = ',' then [] :: splitComma rest
    else
      match splitComma rest with
      | g :: gs => (c :: g) :: gs
      | [] => [[c]]

/-- Offsets the flash loop of main assigns to the entries of a descriptor
list: entries that match neither pattern are passed over by the loop, a
matching entry is processed at the current cumulative cursor c_off, and the
cursor then advances by the entry's declared size (main line 433; the model
follows the processing path in which every named image is present, since
main exits otherwise). -/
def assignOffsetsFrom : Nat → List (List Char) → List (String × Nat × Nat)
  | _, [] => []
  | cOff, e :: rest =>
    match parseEntry e with
    | some r => (r.recName, r.size, cOff) :: assignOffsetsFrom (cOff + r.size) rest
    | none => assignOffsetsFrom cOff rest

/-- Offset assignment starting from cursor 0, as main does per descriptor. -/
def assignOffsets (entries : List (List Char)) : List (String × Nat × Nat) :=
  assignOffsetsFrom 0 entries

/-! ## Block writer (src/img2sd.py, main lines 349-404) -/

/-- Source of a device write: the partition image, or /dev/zero padding. -/
inductive WriteSrc
  | image
  | zeros
deriving DecidableEq

/-- One dd invocation against the device, reduced to the byte range it
writes: dd with seek N and block size B starts writing at byte N times B,
and with count C from /dev/zero writes C times B bytes. -/
structure WriteOp where
  src : WriteSrc
  startByte : Nat
  lenBytes : Nat
deriving DecidableEq

/-- Failure outcomes of processing one partition record. -/
inductive FlashError
  | imageNotFound
  | imageTooLarge
deriving DecidableEq

/-- Block size chosen by main line 360: 64 MiB blocks for images strictly
larger than 64 MiB, else 1 MiB blocks. -/
def blockBytes (actualSize : Nat) : Nat :=
  if actualSize > 64 * 1024 * 1024 then 64 * 1024 * 1024 else 1024 * 1024

/-- Processing of one partition record by main lines 349-433: missing image
exits; an image larger than the partition exits before any dd runs; else
the image is written by dd with seek c_off floor-divided by the block size
(main line 368), and when the image is smaller than the partition a padding
dd runs with seek and count floor-divided by the block size (lines
395-404).  Returns the device writes issued and either the error or the
advanced cursor (line 433). -/
def processRecord (cOff size : Nat) (imgExists : Bool) (actualSize : Nat) :
    List WriteOp × Except FlashError Nat :=
  if imgExists then
    if actualSize > size then ([], Except.error FlashError.imageTooLarge)
    else
      let bs := blockBytes actualSize
      let imgWrite : WriteOp := ⟨WriteSrc.image, cOff / bs * bs, actualSize⟩
      let pads : List WriteOp :=
        if actualSize < size then
          [⟨WriteSrc.zeros, (cOff + actualSize) / bs * bs, (size - actualSize) / bs * bs⟩]
        else []
      (imgWrite :: pads, Except.ok (cOff + size))
  else ([], Except.error FlashError.imageNotFound)

/-! ## Device validation (src/img2sd.py, validate_device lines 73-94 and the
gate in main lines 313-317) -/

/-- Python str.startswith applied to the device-directory path. -/
def startsWithDev (s : String) : Bool := List.isPrefixOf "/dev/".data s.data

/-- os.path.basename: the part after the last slash. -/
def basename (p : String) : String :=
  String.mk ((p.data.reverse.takeWhile (fun c => c ≠ '/')).reverse)

/-- validate_device from src/img2sd.py lines 73-94.  diskNames is the name
list obtained from lsblk, removable is the flag read from the sysfs
removable attribute (False when unreadable), and confirm is the operator's
answer to the non-removable warning prompt. -/
def validate_device (dev : String) (diskNames : List String) (removable : Bool)
    (confirm : String) : Bool :=
  if !startsWithDev dev then false
  else
    match diskNames.find? (fun n => decide (n = basename dev)) with
    | none => false
    | some _ =>
      if !removable then decide (confirm.toLower = "yes")
      else true

/-- The gate of main lines 313-317: validate_device is consulted only when
the target begins with the device directory path; any other target falls
through to the write phase unvalidated. -/
def mainProceedsToWrite (dev : String) (diskNames : List String) (removable : Bool)
    (confirm : String) : Bool :=
  if startsWithDev dev then validate_device dev diskNames removable confirm else true

/-! ## Sampled verifier (src/img2sd.py, quick_verify_data lines 244-281) -/

/-- Sample size of quick_verify_data. -/
def SAMPLE_BYTES : Nat := 1024 * 1024

/-- Python file read: seek to pos and read len bytes, truncated at the file
size. -/
def fileReadAt (f : Nat → Nat) (fileSize pos len : Nat) : List Nat :=
  (List.range (min len (fileSize - pos))).map (fun i => f (pos + i))

/-- dd read from the device with skip_bytes and count_bytes flags: len
bytes starting at the byte position startByte. -/
def devReadAt (d : Nat → Nat) (startByte len : Nat) : List Nat :=
  (List.range len).map (fun i => d (startByte + i))

/-- quick_verify_data from src/img2sd.py lines 244-281: for each of the
three sample positions it reads SAMPLE_BYTES from the source file, and runs
dd on the device with skip set to (offset plus pos) floor-divided by 1024
and count set to SAMPLE_BYTES floor-divided by 1024 under the skip_bytes
and count_bytes flags, which make dd treat both numbers as byte counts; the
two samples are then compared for equality. -/
def quick_verify_data (f d : Nat → Nat) (offset fileSize : Nat) : Bool :=
  [0, fileSize / 2, max 0 (fileSize - SAMPLE_BYTES)].all fun pos =>
    decide (fileReadAt f fileSize pos SAMPLE_BYTES =
      devReadAt d ((offset + pos) / 1024) (SAMPLE_BYTES / 1024))

/-- Strategy selection of main line 407: sampling for images strictly
larger than 64 MiB, full checksum comparison otherwise. -/
def verifyUsesSampling (actualSize : Nat) : Bool := actualSize > 64 * 1024 * 1024

/-! ## Device monitor (src/multiflash.py, monitor_sd_cards lines 116-135) -/

/-- Tracking sets of SDCardMonitor relevant to the poll cycle. -/
structure MonState where
  known : Finset String
  completed : Finset String
  failed : Finset String

/-- The set new_devices of one poll cycle: current minus known. -/
def newDevices (s : MonState) (current : Finset String) : Finset String :=
  current \ s.known

/-- Devices put on the flash queue in one poll cycle: each new device not
already completed or failed (lines 121-125). -/
def enqueuedDevices (s : MonState) (current : Finset String) : Finset String :=
  (newDevices s current).filter fun d => d ∉ s.completed ∧ d ∉ s.failed

/-- One poll cycle of monitor_sd_cards lines 116-135: new devices are added
to known, then devices no longer present are removed from known and purged
from completed and failed. -/
def monitorStep (s : MonState) (current : Finset String) : MonState :=
  let k1 := s.known ∪ newDevices s current
  let removed := k1 \ current
  ⟨k1 \ removed, s.completed \ removed, s.failed \ removed⟩

/-! ## Flash worker (src/multiflash.py, start_flash_worker lines 54-64) -/

/-- Public attributes of the class queue.Queue in the Python standard
library's queue module; the module-level Empty exception is not among them,
so the attribute access in the worker's first except clause fails.
Modelled from the CPython queue module, an external collaborator of the
scripts. -/
def queueClassAttrs : List String :=
  ["maxsize", "mutex", "not_empty", "not_full", "all_tasks_done", "unfinished_tasks",
   "qsize", "empty", "full", "put", "get", "put_nowait", "get_nowait", "task_done", "join"]

/-- Outcome of one iteration of the worker loop. -/
inductive WorkerStep
  | processDevice (d : String)
  | retryDequeue
  | crash (excName : String)
  | workerStopped
deriving DecidableEq

/-- Python attribute lookup on a class, restricted to the attribute table. -/
def exceptClassLookup (attrs : List String) (attr : String) : Option String :=
  if attr ∈ attrs then some attr else none

/-- What the worker does when flash_queue.get times out on an empty queue:
the raised Empty exception reaches the except clauses, evaluating the first
clause's expression looks up the attribute Empty on the class Queue, and
per Python semantics a failure while evaluating an except expression
cancels the handler search and propagates the new exception past the try
statement and out of the loop (the later clause naming Exception is not
consulted), killing the worker thread. -/
def workerHandleEmptyTimeout : WorkerStep :=
  match exceptClassLookup queueClassAttrs "Empty" with
  | some _ => WorkerStep.retryDequeue
  | none => WorkerStep.crash "AttributeError"

/-- One iteration of start_flash_worker lines 56-64: exit when the stop
event is set, otherwise dequeue; a timeout on an empty queue is handled by
the except machinery above, a dequeued device is flashed. -/
def workerStep (stopSet queueEmpty : Bool) (front : String) : WorkerStep :=
  if stopSet then WorkerStep.workerStopped
  else if queueEmpty then workerHandleEmptyTimeout
  else WorkerStep.processDevice front

/-! ## Declarative size-token predicate for the no-match direction of the
size codec -/

/-- A digits-then-unit token occurs in cs at position i with digit-run
length k. -/
def sizeTokenAt (cs : List Char) (i k : Nat) : Prop :=
  1 ≤ k ∧ (∀ j < k, ∃ c, cs.get? (i + j) = some c ∧ c.isDigit = true) ∧
    ∃ u, cs.get? (i + k) = some u ∧ isUnitChar u = true

/-! ## Supporting lemmas on the size codec -/

theorem decValAux_append (xs ys : List Char) (acc : Nat) :
    decValAux acc (xs ++ ys) = decValAux (decValAux acc xs) ys := by
  induction xs generalizing acc with
  | nil => rfl
  | cons c r ih => exact ih (10 * acc + digitVal c)

theorem decVal_append_digit (xs : List Char) (c : Char) :
    decVal (xs ++ [c]) = 10 * decVal xs + digitVal c := by
  rw [decVal, decValAux_append]
  rfl

theorem digitVal_digitChar (d : Nat) (h : d < 10) : digitVal (Nat.digitChar d) = d := by
  interval_cases d <;> decide

theorem isDigit_digitChar (d : Nat) (h : d < 10) : (Nat.digitChar d).isDigit = true := by
  interval_cases d <;> decide

theorem decVal_natDigitsAux (fuel n : Nat) (h : n ≤ fuel) :
    decVal (natDigitsAux fuel n) = n := by
  induction fuel generalizing n with
  | zero =>
    have hn : n = 0 := Nat.le_zero.mp h
    subst hn; rfl
  | succ f ih =>
    by_cases hn : n = 0
    · subst hn; rfl
    · have h10 : n / 10 ≤ f := by
        have := Nat.div_lt_self (Nat.pos_of_ne_zero hn) (by norm_num : 1 < 10)
        omega
      simp only [natDigitsAux, if_neg hn]
      rw [decVal_append_digit, ih _ h10,
        digitVal_digitChar _ (Nat.mod_lt _ (by norm_num))]
      omega

theorem mem_natDigitsAux_isDigit (fuel n : Nat) (c : Char)
    (h : c ∈ natDigitsAux fuel n) : c.isDigit = true := by
  induction fuel generalizing n with
  | zero => simp [natDigitsAux] at h
  | succ f ih =>
    by_cases hn : n = 0
    · subst hn; simp [natDigitsAux] at h
    · simp only [natDigitsAux, if_neg hn, List.mem_append, List.mem_singleton] at h
      rcases h with h | h
      · exact ih _ h
      · subst h; exact isDigit_digitChar _ (Nat.mod_lt _ (by norm_num))

theorem natDigitsAux_length (fuel k n : Nat) (h : n < 10 ^ k) :
    (natDigitsAux fuel n).length ≤ k := by
  induction fuel generalizing k n with
  | zero => simp [natDigitsAux]
  | succ f ih =>
    by_cases hn : n = 0
    · subst hn; simp [natDigitsAux]
    · have hk : k ≠ 0 := by
        intro hk0; subst hk0
        simp only [Nat.pow_zero] at h
        omega
      obtain ⟨k', rfl⟩ := Nat.exists_eq_succ_of_ne_zero hk
      have hdiv : n / 10 < 10 ^ k' := by
        rw [Nat.div_lt_iff_lt_mul (by norm_num : 0 < 10)]
        calc n < 10 ^ (k' + 1) := h
          _ = 10 ^ k' * 10 := by ring
      have hrec := ih k' (n / 10) hdiv
      simp only [natDigitsAux, if_neg hn, List.length_append, List.length_singleton]
      omega

theorem decVal_natToDigits (n : Nat) : decVal (natToDigits n) = n := by
  by_cases hn : n = 0
  · subst hn; rfl
  · simp only [natToDigits, if_neg hn]
    exact decVal_natDigitsAux n n le_rfl

theorem natToDigits_ne_nil (n : Nat) : natToDigits n ≠ [] := by
  by_cases hn : n = 0
  · subst hn; simp [natToDigits]
  · simp only [natToDigits, if_neg hn]
    cases n with
    | zero => exact absurd rfl hn
    | succ m => simp [natDigitsAux, hn]

theorem mem_natToDigits_isDigit (n : Nat) (c : Char) (h : c ∈ natToDigits n) :
    c.isDigit = true := by
  by_cases hn : n = 0
  · subst hn
    rw [show natToDigits 0 = ['0'] from rfl, List.mem_singleton] at h
    subst h; decide
  · simp only [natToDigits, if_neg hn] at h
    exact mem_natDigitsAux_isDigit _ _ _ h

theorem natToDigits_length_le (n : Nat) (h : n < 1000) : (natToDigits n).length ≤ 3 := by
  by_cases hn : n = 0
  · subst hn; simp [natToDigits]
  · simp only [natToDigits, if_neg hn]
    exact natDigitsAux_length n 3 n (by norm_num; omega)

theorem insertCommas_short (ds : List Char) (h : ds.length ≤ 3) : insertCommas ds = ds := by
  match ds with
  | [] => rfl
  | [a] => simp [insertCommas, commaLE]
  | [a, b] => simp [insertCommas, commaLE]
  | [a, b, c] => simp [insertCommas, commaLE]
  | a :: b :: c :: d :: t =>
    simp only [List.length_cons] at h
    omega

theorem unit_not_digit (u : Char) (hu : isUnitChar u = true) : u.isDigit = false := by
  simp only [isUnitChar, Bool.or_eq_true, beq_iff_eq] at hu
  rcases hu with ((h | h) | h) | h <;> subst h <;> decide

theorem takeWhile_all_append (p : Char → Bool) (ds : List Char) (u : Char) (ts : List Char)
    (hall : ∀ c ∈ ds, p c = true) (hu : p u = false) :
    (ds ++ u :: ts).takeWhile p = ds ∧ (ds ++ u :: ts).dropWhile p = u :: ts := by
  induction ds with
  | nil => simp [List.takeWhile_cons, List.dropWhile_cons, hu]
  | cons c r ih =>
    have hc : p c = true := hall c (by simp)
    have hr : ∀ x ∈ r, p x = true := fun x hx => hall x (by simp [hx])
    obtain ⟨h1, h2⟩ := ih hr
    simp [List.takeWhile_cons, List.dropWhile_cons, hc, h1, h2]

theorem findSizeMatch_token (ds : List Char) (u : Char) (hne : ds ≠ [])
    (hall : ∀ c ∈ ds, c.isDigit = true) (hu : isUnitChar u = true) :
    findSizeMatch (ds ++ [u]) = some (ds, u) := by
  have hud : u.isDigit = false := unit_not_digit u hu
  match ds, hne with
  | c :: r, _ =>
    have hc : c.isDigit = true := hall c (by simp)
    obtain ⟨ht, hd⟩ := takeWhile_all_append Char.isDigit (c :: r) u [] hall hud
    simp only [List.cons_append] at ht hd ⊢
    simp [findSizeMatch, hc, hd, ht, hu]

theorem true_size_sizeFmt (m : Nat) (u : Char) (hm : m < 1000) (hu : isUnitChar u = true) :
    true_size (sizeFmt m u) = m * unitVal u := by
  have hic := insertCommas_short _ (natToDigits_length_le m hm)
  have hfm := findSizeMatch_token (natToDigits m) u (natToDigits_ne_nil m)
    (fun c hc => mem_natToDigits_isDigit m c hc) hu
  unfold true_size sizeFmt
  rw [hic]
  rw [show (String.mk (natToDigits m ++ [u])).data = natToDigits m ++ [u] from rfl]
  rw [hfm]
  show decVal (natToDigits m) * unitVal u = m * unitVal u
  rw [decVal_natToDigits]

theorem sizeTokenAt_cons (c : Char) (rest : List Char) (i k : Nat)
    (h : sizeTokenAt rest i k) : sizeTokenAt (c :: rest) (i + 1) k := by
  obtain ⟨hk, hdig, u, hu, hunit⟩ := h
  refine ⟨hk, ?_, u, ?_, hunit⟩
  · intro j hj
    obtain ⟨d, hd, hdd⟩ := hdig j hj
    refine ⟨d, ?_, hdd⟩
    rw [show i + 1 + j = (i + j) + 1 by omega, List.get?_cons_succ]
    exact hd
  · rw [show i + 1 + k = (i + k) + 1 by omega, List.get?_cons_succ]
    exact hu

theorem findSizeMatch_some_token (cs : List Char) (r : List Char × Char)
    (h : findSizeMatch cs = some r) : ∃ i k, sizeTokenAt cs i k := by
  induction cs generalizing r with
  | nil => simp [findSizeMatch] at h
  | cons c rest ih =>
    rw [findSizeMatch] at h
    by_cases hc : c.isDigit = true
    · rw [if_pos hc] at h
      split at h
      next u tl hdw =>
        by_cases hu : isUnitChar u = true
        · have hsplit : (c :: rest).takeWhile Char.isDigit ++ (u :: tl) = c :: rest := by
            rw [← hdw]
            exact List.takeWhile_append_dropWhile Char.isDigit _
          refine ⟨0, ((c :: rest).takeWhile Char.isDigit).length, ?_, ?_, ?_⟩
          · rw [List.takeWhile_cons, if_pos hc]
            simp
          · intro j hj
            rw [Nat.zero_add, ← hsplit, List.get?_append hj]
            cases hget : ((c :: rest).takeWhile Char.isDigit).get? j with
            | none =>
              rw [List.get?_eq_none] at hget
              omega
            | some d =>
              exact ⟨d, rfl, List.mem_takeWhile_imp (List.get?_mem hget)⟩
          · have hres : ((c :: rest).takeWhile Char.isDigit ++ (u :: tl)).get?
                (((c :: rest).takeWhile Char.isDigit).length) = some u := by
              rw [List.get?_append_right le_rfl, Nat.sub_self]
              rfl
            rw [hsplit] at hres
            refine ⟨u, ?_, hu⟩
            rw [Nat.zero_add]
            exact hres
        · rw [if_neg hu] at h
          obtain ⟨i, k, ht⟩ := ih _ h
          exact ⟨i + 1, k, sizeTokenAt_cons _ _ _ _ ht⟩
      next hdw =>
        obtain ⟨i, k, ht⟩ := ih _ h
        exact ⟨i + 1, k, sizeTokenAt_cons _ _ _ _ ht⟩
    · rw [if_neg hc] at h
      obtain ⟨i, k, ht⟩ := ih _ h
      exact ⟨i + 1, k, sizeTokenAt_cons _ _ _ _ ht⟩

/-! ## Supporting lemma on the entry loop -/

theorem assignOffsetsFrom_skip (pre post : List (List Char)) (e : List Char)
    (h : parseEntry e = none) (cOff : Nat) :
    assignOffsetsFrom cOff (pre ++ e :: post) = assignOffsetsFrom cOff (pre ++ post) := by
  induction pre generalizing cOff with
  | nil => simp only [List.nil_append, assignOffsetsFrom, h]
  | cons x xs ih =>
    cases hx : parseEntry x with
    | some r =>
      simp only [List.cons_append, assignOffsetsFrom, hx]
      exact congrArg ((r.recName, r.size, cOff) :: ·) (ih (cOff + r.size))
    | none =>
      simp only [List.cons_append, assignOffsetsFrom, hx]
      exact ih _

/-! ## Claim theorems -/

/-- C1: the claim says every image is written starting at exactly the
cumulative byte offset and padding covers exactly the bytes from
offset plus imageSize up to offset plus partitionSize.  The code instead
floor-divides the cumulative offset by the dd block size for the seek,
and floor-divides the padding seek and count likewise: after a 512 KiB
first partition the next 1 MiB image is written at byte 0 instead of byte
524288, and a 1.5 MiB image in a 2 MiB partition gets a padding write of 0
bytes at byte 1048576 instead of 524288 bytes at byte 1572864. -/
theorem claim_C1_block_rounded_offsets :
    processRecord 524288 1048576 true 1048576 =
      ([⟨WriteSrc.image, 0, 1048576⟩], Except.ok 1572864) ∧
    (0 : Nat) ≠ 524288 ∧
    processRecord 0 2097152 true 1572864 =
      ([⟨WriteSrc.image, 0, 1572864⟩, ⟨WriteSrc.zeros, 1048576, 0⟩], Except.ok 2097152) ∧
    (1048576 : Nat) ≠ 1572864 ∧ (0 : Nat) ≠ 2097152 - 1572864 := by
  refine ⟨rfl, by decide, rfl, by decide, by decide⟩

/-- C2 counterexample: a target that does not begin with the device
directory path reaches the write phase without validate_device being
consulted at all, so validation does not apply to every target. -/
theorem claim_C2_counterexample :
    mainProceedsToWrite "disk.img" [] false "" = true ∧
    validate_device "disk.img" [] false "" = false ∧
    startsWithDev "disk.img" = false := by decide

/-- C2 amended: for every flash invocation whose target begins with the
device directory path, proceeding to the write phase implies the target's
basename is among the lsblk-listed devices and, unless the device is
flagged removable, the operator answered exactly yes; targets not
beginning with that path are written without any validation. -/
theorem claim_C2_amended (dev : String) (disks : List String) (rm : Bool) (conf : String)
    (hdev : startsWithDev dev = true)
    (hproceed : mainProceedsToWrite dev disks rm conf = true) :
    basename dev ∈ disks ∧ (rm = true ∨ conf.toLower = "yes") := by
  rw [mainProceedsToWrite, if_pos hdev] at hproceed
  rw [validate_device, hdev] at hproceed
  simp only [Bool.not_true, Bool.false_eq_true, if_false] at hproceed
  cases hf : disks.find? (fun n => decide (n = basename dev)) with
  | none =>
    rw [hf] at hproceed
    simp at hproceed
  | some a =>
    rw [hf] at hproceed
    have hmem : a ∈ disks := List.mem_of_find?_eq_some hf
    have hpa := List.find?_some hf
    have heq : a = basename dev := of_decide_eq_true hpa
    refine ⟨heq ▸ hmem, ?_⟩
    cases rm with
    | true => exact Or.inl rfl
    | false =>
      simp only [Bool.not_false, if_true] at hproceed
      exact Or.inr (of_decide_eq_true hproceed)

/-- C2 witness: a removable, lsblk-listed device-directory target passes
the amended validation property. -/
theorem claim_C2_witness :
    basename "/dev/sdb" ∈ ["sdb"] ∧ (true = true ∨ ("x" : String).toLower = "yes") :=
  claim_C2_amended "/dev/sdb" ["sdb"] true "x" (by decide) (by decide)

/-- C3: an image strictly larger than its declared partition size makes
the record processing fail before any device write is issued, leaving the
write list empty. -/
theorem claim_C3_oversize_before_io (cOff size actualSize : Nat) (h : actualSize > size) :
    processRecord cOff size true actualSize = ([], Except.error FlashError.imageTooLarge) := by
  rw [processRecord, if_pos rfl, if_pos h]

/-- C3 witness: a 200-byte image against a 100-byte partition. -/
theorem claim_C3_witness :
    processRecord 0 100 true 200 = ([], Except.error FlashError.imageTooLarge) :=
  claim_C3_oversize_before_io 0 100 200 (by decide)

/-- C4: on the descriptor entries with sizes 1M, 2M, 4M and no explicit
offsets, the offsets assigned to a, b and c are 0, 1048576 and 3145728,
the running cumulative cursor advancing strictly left to right. -/
theorem claim_C4_cumulative_offsets :
    assignOffsets (splitComma "1M(a),2M(b),4M(c)".data) =
      [("a", 1048576, 0), ("b", 2097152, 1048576), ("c", 4194304, 3145728)] := by decide

/-- C5 counterexample: 1000 is expressible as a size token with no
remainder (1000B), but nice_size prints it with a thousands separator and
true_size only matches the digits after the comma, so the round trip
returns 0, not 1000. -/
theorem claim_C5_counterexample :
    nice_size 1000 = "1,000B" ∧ true_size "1,000B" = 0 ∧
    true_size (nice_size 1000) ≠ 1000 := by decide

/-- C5 amended: the round trip holds for every byte
count whose printed count is below 1000, so that no thousands separator
appears; in particular 67108864 formats to 64M and 64M parses back to
67108864. -/
theorem claim_C5_roundtrip :
    (∀ n : Nat, niceCount n < 1000 → true_size (nice_size n) = n) ∧
    nice_size 67108864 = "64M" ∧ true_size "64M" = 67108864 := by
  refine ⟨?_, by decide, by decide⟩
  intro n h
  unfold niceCount at h
  unfold nice_size
  by_cases h1 : n ≥ GB ∧ n % GB = 0
  · rw [if_pos h1] at h ⊢
    rw [true_size_sizeFmt _ _ h (by decide)]
    rw [show unitVal 'G' = GB from rfl]
    exact Nat.div_mul_cancel (Nat.dvd_of_mod_eq_zero h1.2)
  · rw [if_neg h1] at h ⊢
    by_cases h2 : n ≥ MB ∧ n % MB = 0
    · rw [if_pos h2] at h ⊢
      rw [true_size_sizeFmt _ _ h (by decide)]
      rw [show unitVal 'M' = MB from rfl]
      exact Nat.div_mul_cancel (Nat.dvd_of_mod_eq_zero h2.2)
    · rw [if_neg h2] at h ⊢
      by_cases h3 : n ≥ KB ∧ n % KB = 0
      · rw [if_pos h3] at h ⊢
        rw [true_size_sizeFmt _ _ h (by decide)]
        rw [show unitVal 'K' = KB from rfl]
        exact Nat.div_mul_cancel (Nat.dvd_of_mod_eq_zero h3.2)
      · rw [if_neg h3] at h ⊢
        by_cases h4 : n ≥ 1 ∧ n % 1 = 0
        · rw [if_pos h4]
          rw [true_size_sizeFmt _ _ h (by decide)]
          rw [show unitVal 'B' = 1 from rfl, Nat.mul_one]
        · rw [if_neg h4]
          rw [true_size_sizeFmt _ _ h (by decide)]
          rw [show unitVal 'B' = 1 from rfl, Nat.mul_one]

/-- C5 witness: 3 MiB round-trips through the size codec. -/
theorem claim_C5_witness : true_size (nice_size 3145728) = 3145728 :=
  claim_C5_roundtrip.1 3145728 (by decide)

/-- C6 counterexample: a token with no digits-then-unit match makes
true_size return 0, the very value it returns for a genuine zero-byte
token, instead of failing with an explicit error. -/
theorem claim_C6_counterexample :
    findSizeMatch "zzz".data = none ∧ true_size "zzz" = 0 ∧ true_size "0B" = 0 := by decide

/-- C6 amended: for every input string containing no digits-then-unit
token anywhere, true_size returns 0 rather than an error, the same value
as for an explicit zero-byte token, so callers cannot distinguish zero
bytes from unparsable input. -/
theorem claim_C6_silent_zero :
    (∀ s : String, (∀ i k, ¬ sizeTokenAt s.data i k) → true_size s = 0) ∧
    true_size "0B" = 0 := by
  refine ⟨?_, by decide⟩
  intro s hno
  cases hm : findSizeMatch s.data with
  | none =>
    unfold true_size
    rw [hm]
  | some r =>
    obtain ⟨i, k, ht⟩ := findSizeMatch_some_token _ _ hm
    exact absurd ht (hno i k)

/-- C6 witness: the empty string has no size token and parses to 0. -/
theorem claim_C6_witness : true_size "" = 0 := by
  apply claim_C6_silent_zero.1
  intro i k htok
  obtain ⟨hk, hdig, u, hu, _⟩ := htok
  rw [show ("" : String).data = [] from rfl] at hu
  simp [List.get?] at hu

/-- C7 counterexample: an entry matching neither syntax is skipped
silently and the rest of the descriptor is still interpreted, instead of
the whole descriptor failing with an error. -/
theorem claim_C7_counterexample :
    parseEntry "bogus".data = none ∧
    assignOffsets (splitComma "bogus,1M(a)".data) = [("a", 1048576, 0)] := by decide

/-- C7 amended: the entry loop silently passes over any entry matching
neither syntax and processes the remaining entries exactly as if the
malformed entry were absent, so the descriptor is partially interpreted
with no error. -/
theorem claim_C7_silent_skip (pre post : List (List Char)) (e : List Char)
    (h : parseEntry e = none) :
    assignOffsets (pre ++ e :: post) = assignOffsets (pre ++ post) :=
  assignOffsetsFrom_skip pre post e h 0

/-- C7 witness: a malformed entry between two well-formed ones changes
nothing in the parsed output. -/
theorem claim_C7_witness :
    assignOffsets (["1M(a)".data] ++ "bogus".data :: ["2M(b)".data]) =
      assignOffsets (["1M(a)".data] ++ ["2M(b)".data]) :=
  claim_C7_silent_skip ["1M(a)".data] ["2M(b)".data] "bogus".data (by decide)

/-- C8: the claim says the sampled compare reads 1 MiB at the
corresponding device positions; the code passes both the skip and the
count to dd floor-divided by 1024 while also setting the skip_bytes and
count_bytes flags, so the device sample is 1024 bytes at the wrong byte
position and can never equal the 1 MiB source sample: for a 128 MiB image
the sampled verification returns false for every file content, every
device content and every offset, even when the device matches the source
exactly. -/
theorem claim_C8_sampling_always_fails (f d : Nat → Nat) (offset : Nat) :
    quick_verify_data f d offset 134217728 = false := by
  have h0 : decide (fileReadAt f 134217728 0 SAMPLE_BYTES =
      devReadAt d ((offset + 0) / 1024) (SAMPLE_BYTES / 1024)) = false := by
    apply decide_eq_false
    intro heq
    have hlen := congrArg List.length heq
    simp only [fileReadAt, devReadAt, List.length_map, List.length_range, SAMPLE_BYTES] at hlen
    omega
  simp only [quick_verify_data, List.all_cons, h0, Bool.false_and]

/-- C9: in one poll cycle of the monitor, a device is enqueued exactly
once and only when it is newly present and in neither the completed nor
the failed set; a disappeared device is purged from all three tracking
sets; and a device still tracked as known (in particular one that stayed
inserted after completing) is never enqueued again. -/
theorem claim_C9_monitor_invariants (s : MonState) (current : Finset String) (d : String) :
    (d ∈ enqueuedDevices s current ↔
      d ∈ current ∧ d ∉ s.known ∧ d ∉ s.completed ∧ d ∉ s.failed) ∧
    (enqueuedDevices s current).val.count d ≤ 1 ∧
    (d ∈ s.known → d ∉ current →
      d ∉ (monitorStep s current).known ∧ d ∉ (monitorStep s current).completed ∧
        d ∉ (monitorStep s current).failed) ∧
    (d ∈ s.known → d ∉ enqueuedDevices s current) ∧
    (d ∈ s.completed → d ∉ enqueuedDevices s current) := by
  refine ⟨?_, ?_, ?_, ?_, ?_⟩
  · simp [enqueuedDevices, newDevices, Finset.mem_filter, Finset.mem_sdiff]
    tauto
  · exact Multiset.nodup_iff_count_le_one.mp (enqueuedDevices s current).nodup d
  · intro h1 h2
    simp [monitorStep, newDevices, Finset.mem_sdiff, Finset.mem_union]
    tauto
  · intro h1
    simp [enqueuedDevices, newDevices, Finset.mem_filter, Finset.mem_sdiff]
    tauto
  · intro h1
    simp [enqueuedDevices, newDevices, Finset.mem_filter, Finset.mem_sdiff]
    tauto

/-- C9 witness: a completed device that is removed is purged from all
tracking sets, and while still known it is never re-enqueued. -/
theorem claim_C9_witness :
    ("/dev/sdb" ∉ (monitorStep ⟨{"/dev/sdb"}, {"/dev/sdb"}, ∅⟩ ∅).known ∧
      "/dev/sdb" ∉ (monitorStep ⟨{"/dev/sdb"}, {"/dev/sdb"}, ∅⟩ ∅).completed ∧
      "/dev/sdb" ∉ (monitorStep ⟨{"/dev/sdb"}, {"/dev/sdb"}, ∅⟩ ∅).failed) ∧
    "/dev/sdb" ∉ enqueuedDevices ⟨{"/dev/sdb"}, {"/dev/sdb"}, ∅⟩ ∅ :=
  ⟨(claim_C9_monitor_invariants ⟨{"/dev/sdb"}, {"/dev/sdb"}, ∅⟩ ∅ "/dev/sdb").2.2.1
      (by decide) (by decide),
    (claim_C9_monitor_invariants ⟨{"/dev/sdb"}, {"/dev/sdb"}, ∅⟩ ∅ "/dev/sdb").2.2.2.1
      (by decide)⟩

/-- C10: the claim says the worker handles the empty-queue timeout and
retries the dequeue; instead, evaluating the first except clause looks up
the attribute Empty on the class Queue, which does not exist, so the
iteration ends in an AttributeError that escapes the loop and kills the
worker rather than a retry. -/
theorem claim_C10_worker_crashes :
    workerStep false true "/dev/sdb" = WorkerStep.crash "AttributeError" ∧
    workerStep false true "/dev/sdb" ≠ WorkerStep.retryDequeue := by decide

end Luckfox
